import Mathlib

/-!
Verification of the video-recording subsystem of the playwright-mcp fork.

The definitions below are shallow embeddings of the TypeScript sources:
the enhanced video tool (`videoStart`, `videoStop`, `isBrowserlessEndpoint`,
`hasRecordingEnabled`), the finalization monitor `waitForVideoFileComplete`
and the reader `readVideoFileAsBase64` from `src/tools/video.ts`, and the
HTTP artifact server `serveVideoFile` from the transport module.

Node/JS runtime services (filesystem, CDP protocol calls, URL parsing) are
modelled as explicit inputs: byte contents are `List Nat` (each < 256),
protocol calls are values describing the outcome of each backend command,
and time advances by the literal sleep interval of each polling iteration.
-/

namespace PwMcp

/-- `needle` occurs as a contiguous run inside `hay` (model of
JavaScript `String.prototype.includes` on the underlying characters). -/
def charsIncl (needle : List Char) : List Char → Bool
  | [] => needle.isEmpty
  | c :: rest => needle.isPrefixOf (c :: rest) || charsIncl needle rest

/-- Model of JavaScript `hay.includes(sub)`. -/
def strIncludes (hay sub : String) : Bool :=
  charsIncl sub.data hay.data

/-- Replace the first occurrence of `needle` in the list by `repl`
(model of JavaScript `String.prototype.replace` with a plain pattern). -/
def replaceFirstChars (needle repl : List Char) : List Char → List Char
  | [] => []
  | c :: rest =>
    if needle.isPrefixOf (c :: rest) then repl ++ List.drop needle.length (c :: rest)
    else c :: replaceFirstChars needle repl rest

/-- Replace the first occurrence of `needle` in `s` by `repl`. -/
def replaceFirstStr (s needle repl : String) : String :=
  String.mk (replaceFirstChars needle.data repl.data s.data)

/-- Split a character list at every occurrence of `sep`
(model of JavaScript `String.prototype.split` with a single-char separator). -/
def splitOnChar (sep : Char) : List Char → List (List Char)
  | [] => [[]]
  | c :: rest =>
    let r := splitOnChar sep rest
    if c = sep then [] :: r
    else
      match r with
      | [] => [[c]]
      | h :: t => (c :: h) :: t

/-- Model of JavaScript `parseInt(s, 10)` restricted to non-negative inputs:
the longest leading run of decimal digits, `none` when there is none (NaN). -/
def parseIntLeading (cs : List Char) : Option Nat :=
  let ds := cs.takeWhile (fun c => '0' ≤ c && c ≤ '9')
  if ds.isEmpty then none
  else some (ds.foldl (fun a c => a * 10 + (c.toNat - 48)) 0)

/-- `String(i).padStart(6, '0')`: decimal rendering padded to six digits. -/
def pad6 (i : Nat) : String :=
  let s := toString i
  String.mk (List.replicate (6 - s.length) '0') ++ s

/-! ### Base64 (Node `Buffer.toString('base64')` / `Buffer.from(s, 'base64')`) -/

/-- The standard base64 alphabet, in encoding order. -/
def base64Chars : List Char :=
  "ABCDEFGHIJKLMNOPQRSTUVWXYZabcdefghijklmnopqrstuvwxyz0123456789+/".data

/-- Character for a sextet value (< 64). -/
def sextetChar (n : Nat) : Char := base64Chars.getD n 'A'

/-- Sextet value of an alphabet character (its index in the alphabet). -/
def charSextet (c : Char) : Nat := base64Chars.indexOf c

/-- Node `Buffer.toString('base64')`: bytes to base64 characters, with
trailing `=` padding for a final group of one or two bytes. -/
def encodeBase64 : List Nat → List Char
  | [] => []
  | [b1] => [sextetChar (b1 / 4), sextetChar (b1 % 4 * 16), '=', '=']
  | [b1, b2] =>
      [sextetChar (b1 / 4), sextetChar (b1 % 4 * 16 + b2 / 16), sextetChar (b2 % 16 * 4), '=']
  | b1 :: b2 :: b3 :: rest =>
      sextetChar (b1 / 4) :: sextetChar (b1 % 4 * 16 + b2 / 16) ::
      sextetChar (b2 % 16 * 4 + b3 / 64) :: sextetChar (b3 % 64) :: encodeBase64 rest

/-- Reassemble bytes from a sextet stream (groups of four, with the
standard two- and three-sextet tail cases). -/
def decodeBase64Core : List Nat → List Nat
  | c1 :: c2 :: c3 :: c4 :: rest =>
      (c1 * 4 + c2 / 16) :: (c2 % 16 * 16 + c3 / 4) :: (c3 % 4 * 64 + c4) ::
      decodeBase64Core rest
  | [c1, c2] => [c1 * 4 + c2 / 16]
  | [c1, c2, c3] => [c1 * 4 + c2 / 16, c2 % 16 * 16 + c3 / 4]
  | _ => []

/-- Node `Buffer.from(s, 'base64')` applied to canonical base64 text:
padding characters are ignored, the rest is read as sextets. -/
def decodeBase64 (cs : List Char) : List Nat :=
  decodeBase64Core ((cs.filter (fun c => !(c == '='))).map charSextet)

/-- The unpadded sextet stream of a byte list (the information content of
its base64 encoding). -/
def sextetsOf : List Nat → List Nat
  | [] => []
  | [b1] => [b1 / 4, b1 % 4 * 16]
  | [b1, b2] => [b1 / 4, b1 % 4 * 16 + b2 / 16, b2 % 16 * 4]
  | b1 :: b2 :: b3 :: rest =>
      (b1 / 4) :: (b1 % 4 * 16 + b2 / 16) :: (b2 % 16 * 4 + b3 / 64) :: (b3 % 64) ::
      sextetsOf rest

/-! ### Backend selector predicates (`isBrowserlessEndpoint`, `hasRecordingEnabled`) -/

/-- Result of WHATWG `new URL(...)`: the components inspected by the
endpoint predicates. -/
structure URLRec where
  hostname : String
  pathname : String
  searchParams : List (String × String)
deriving Repr, DecidableEq

/-- `url.searchParams.has(k)`. -/
def searchParamsHas (ps : List (String × String)) (k : String) : Bool :=
  ps.any (fun p => p.1 == k)

/-- `url.searchParams.get(k)`: value of the first parameter named `k`. -/
def searchParamsGet (ps : List (String × String)) (k : String) : Option String :=
  (ps.find? (fun p => p.1 == k)).map Prod.snd

/-- `isBrowserlessEndpoint(cdpEndpoint)`: false for an empty endpoint and on
URL parse failure; otherwise true when the hostname contains a vendor
fragment, the path contains `/browserless`, or a `token` query parameter is
present. `parseURL` stands for the runtime URL parser: `none` models the
`new URL` constructor throwing. -/
def isBrowserlessEndpoint (parseURL : String → Option URLRec) (cdpEndpoint : String) : Bool :=
  if cdpEndpoint == "" then false
  else
    match parseURL cdpEndpoint with
    | none => false
    | some url =>
        strIncludes url.hostname "browserless" ||
        strIncludes url.hostname "chrome.browserless" ||
        strIncludes url.pathname "/browserless" ||
        searchParamsHas url.searchParams "token"

/-- `hasRecordingEnabled(cdpEndpoint)`: the `record` query parameter equals
`true`; false on URL parse failure. -/
def hasRecordingEnabled (parseURL : String → Option URLRec) (cdpEndpoint : String) : Bool :=
  match parseURL cdpEndpoint with
  | none => false
  | some url => searchParamsGet url.searchParams "record" == some "true"

/-! ### Finalization monitor (`waitForVideoFileComplete`) -/

/-- Mutable locals of the polling loop in `waitForVideoFileComplete`:
the last observed size and the consecutive-stable counter. -/
structure WaitState where
  lastSize : Nat
  stableCount : Nat
deriving Repr, DecidableEq

/-- Outcome of the finalization wait: whether the stability break was
taken, the last observed size, the elapsed time (ms) at return, and the
number of `fs.stat` polls performed. -/
structure WaitResult where
  stable : Bool
  lastSize : Nat
  elapsed : Nat
  pollCount : Nat
deriving Repr, DecidableEq

/-- One loop iteration's state update, exactly as in the source body:
a failed stat (`none`) and a zero size leave the state untouched (both the
counter and `lastSize` are only updated under `currentSize > 0`); an
unchanged positive size increments the counter; a changed positive size
resets it to zero. -/
def waitStep (st : WaitState) (poll : Option Nat) : WaitState :=
  match poll with
  | none => st
  | some size =>
    if 0 < size then
      if size = st.lastSize then ⟨size, st.stableCount + 1⟩
      else ⟨size, 0⟩
    else st

/-- The polling loop of `waitForVideoFileComplete`. `polls k` is the result
of the `k`-th `fs.promises.stat` call (`none` = stat threw). Time starts at
0 and each non-breaking iteration sleeps `interval` ms; the loop runs while
`elapsed < maxWait` and breaks early when an unchanged positive size has
been seen `required` times in a row. `fuel` is a structural bound on the
number of iterations; callers pass enough fuel that it never expires before
the time bound (see `waitLoopF_timeBound`). -/
def waitLoopF (polls : Nat → Option Nat) (required interval maxWait : Nat) :
    Nat → Nat → WaitState → Nat → WaitResult
  | 0, elapsed, st, k => ⟨false, st.lastSize, elapsed, k⟩
  | fuel + 1, elapsed, st, k =>
    if elapsed < maxWait then
      match polls k with
      | some size =>
        if 0 < size then
          if size = st.lastSize then
            if required ≤ st.stableCount + 1 then ⟨true, size, elapsed, k + 1⟩
            else waitLoopF polls required interval maxWait fuel (elapsed + interval)
              ⟨size, st.stableCount + 1⟩ (k + 1)
          else waitLoopF polls required interval maxWait fuel (elapsed + interval)
            ⟨size, 0⟩ (k + 1)
        else waitLoopF polls required interval maxWait fuel (elapsed + interval) st (k + 1)
      | none => waitLoopF polls required interval maxWait fuel (elapsed + interval) st (k + 1)
    else ⟨false, st.lastSize, elapsed, k⟩

/-- `waitForVideoFileComplete(filePath, maxWaitMs, isForced)`: poll the file
size until it is positive and unchanged for 3 consecutive polls (5 when
forced), sleeping 500 ms between polls (1000 ms when forced), giving up once
`maxWaitMs` has elapsed. `polls` abstracts the sequence of stat results for
the file. -/
def waitForVideoFileComplete (polls : Nat → Option Nat) (maxWaitMs : Nat)
    (isForced : Bool) : WaitResult :=
  waitLoopF polls (if isForced then 5 else 3) (if isForced then 1000 else 500)
    maxWaitMs maxWaitMs 0 ⟨0, 0⟩ 0

/-- The loop state after the first `n` polls, obtained by folding
`waitStep` from the initial state. -/
def countAfter (polls : Nat → Option Nat) : Nat → WaitState
  | 0 => ⟨0, 0⟩
  | n + 1 => waitStep (countAfter polls n) (polls n)

/-- The per-poll counter described by the specification text: the count of
consecutive polls whose size is unchanged and positive, reset to zero
whenever the observed size changes (including a change to zero). -/
def specWaitStep (st : WaitState) (size : Nat) : WaitState :=
  if size = st.lastSize then
    (if 0 < size then ⟨size, st.stableCount + 1⟩ else ⟨size, st.stableCount⟩)
  else ⟨size, 0⟩

/-- The spec-described counter after the first `n` polls (a failed stat
observes nothing and leaves the state untouched). -/
def specCountAfter (polls : Nat → Option Nat) : Nat → WaitState
  | 0 => ⟨0, 0⟩
  | n + 1 =>
    match polls n with
    | none => specCountAfter polls n
    | some size => specWaitStep (specCountAfter polls n) size

/-- The monitor's success discipline relative to the fold `countAfter`:
if the wait reports stability, the consecutive-stable counter is exactly
`required` after the final poll and was below `required` after every
earlier poll; if it does not report stability, the counter stayed below
`required` throughout the polled window. -/
def countSpec (polls : Nat → Option Nat) (required : Nat) (r : WaitResult) : Prop :=
  (r.stable = true →
    (countAfter polls r.pollCount).stableCount = required ∧
    ∀ m, m < r.pollCount → (countAfter polls m).stableCount < required) ∧
  (r.stable = false →
    ∀ m, m ≤ r.pollCount → (countAfter polls m).stableCount < required)

/-- Time behaviour of the wait: when it does not report stability it has
waited out the whole `maxWait` bound, its return time never reaches
`maxWait + interval`, and the return time is a multiple of the poll
interval. -/
def timeSpec (interval maxWait : Nat) (r : WaitResult) : Prop :=
  (r.stable = false → maxWait ≤ r.elapsed) ∧
  r.elapsed < maxWait + interval ∧ interval ∣ r.elapsed

/-! ### Recording session registry and `videoStart` -/

/-- One frame captured by the screencast listener: the base64 payload of
the `Page.screencastFrame` event and its arrival timestamp. -/
structure Frame where
  data : List Char
  timestamp : Nat
deriving Repr, DecidableEq

/-- The `_videoRecording` registry entry: the flags and data stored by
`videoStart` and consumed by `videoStop`. `hasCdpSession` records whether a
control-channel handle is held. -/
structure VideoRecording where
  usingBrowserless : Bool
  usingScreencast : Bool
  hasCdpSession : Bool
  requestedFilename : String
  frames : List Frame
  format : String
deriving Repr, DecidableEq

/-- The per-context mutable state touched by the video tools: the
`_videoRecording` active-session slot and the `_storedVideos` name-to-path
map (modelled as an association list, newest first). -/
structure CtxState where
  videoRecording : Option VideoRecording
  storedVideos : List (String × String)
deriving Repr, DecidableEq

/-- Browser configuration inspected by `videoStart`: the optional
`--cdp-endpoint` value and whether `contextOptions.recordVideo` was set
at startup (`--video-mode`). -/
structure StartConfig where
  cdpEndpoint : Option String
  contextRecordVideo : Bool
deriving Repr, DecidableEq

/-- Caller arguments of `browser_video_start` after defaulting. -/
structure StartParams where
  filename : String
  useScreencast : Bool
  format : String
deriving Repr, DecidableEq

/-- Outcomes of the backend calls `videoStart` can make. `capsRecording`
is the value of `Browserless.getCapabilities` (`none` models the command
failing, in which case the source assumes recording is supported);
`startRecordingOk` is false when `Browserless.startRecording` throws or
exceeds its 10-second timeout. -/
structure StartBackend where
  browserAvailable : Bool
  newCdpOk : Bool
  capsRecording : Option Bool
  startRecordingOk : Bool
  startScreencastOk : Bool
deriving Repr, DecidableEq

/-- Result variants of the `browser_video_start` action. Each message-
carrying variant corresponds to one `return { content: [...] }` site. -/
inductive StartOutcome where
  | alreadyActive
  | browserUnavailable
  | notEnabled (msg : String)
  | browserlessFailed (msg : String)
  | startedBrowserless
  | screencastFailed (msg : String)
  | startedScreencast
  | needsConfig (msg : String)
  | startedContext
  | notConfigured (msg : String)
deriving Repr, DecidableEq

/-- Result of one `videoStart` action: its outcome, the registry state it
leaves behind, and how many CDP sessions it opened and detached. -/
structure StartResult where
  outcome : StartOutcome
  state : CtxState
  cdpOpened : Nat
  detachCount : Nat
deriving Repr, DecidableEq

/-- The remediation message returned when a Browserless endpoint is
detected without the recording opt-in flag. -/
def notEnabledMsg : String :=
  "Browserless endpoint detected but recording not enabled. Add \x27record=true\x27 to your CDP URL:\n\nExample: wss://production-sfo.browserless.io?token=YOUR_TOKEN&record=true"

/-- Message of the regular-CDP branch when no recording option is active. -/
def needsConfigMsg (cdpEndpoint : String) : String :=
  "Regular CDP endpoint detected. Choose one of these options:\n\n1. Restart with --video-mode flag for full video recording:\n   node cli.js --cdp-endpoint=" ++
    cdpEndpoint ++ " --video-mode=on\n\n2. Use screencast mode (captures frames):\n   Set useScreencast: true in your request"

/-- Message returned when recording was not enabled at startup. -/
def notConfiguredMsg : String :=
  "Video recording not available. Please restart with --video-mode flag:\n\nExample: node cli.js --video-mode=on\n\nThis enables video recording on the browser context from startup."

/-- `videoStart` action (enhanced video tool). The already-active check is
performed first and returns without touching any state; otherwise the
branch taken follows the browser configuration and the endpoint
predicates, with every CDP-session open and detach recorded. `parseURL`
abstracts the runtime URL parser used by the endpoint predicates. -/
def videoStart (parseURL : String → Option URLRec) (cfg : StartConfig)
    (be : StartBackend) (st : CtxState) (p : StartParams) : StartResult :=
  match st.videoRecording with
  | some _ => ⟨.alreadyActive, st, 0, 0⟩
  | none =>
    if !be.browserAvailable then ⟨.browserUnavailable, st, 0, 0⟩
    else
      match cfg.cdpEndpoint with
      | some ep =>
        if ep ≠ "" then
          if isBrowserlessEndpoint parseURL ep then
            if !hasRecordingEnabled parseURL ep then ⟨.notEnabled notEnabledMsg, st, 0, 0⟩
            else if !be.newCdpOk then
              ⟨.browserlessFailed "Browserless recording failed", st, 0, 0⟩
            else if !(be.capsRecording.getD true) then
              ⟨.browserlessFailed "Browserless endpoint does not support video recording",
                st, 1, 1⟩
            else if !be.startRecordingOk then
              ⟨.browserlessFailed "Recording start timeout after 10 seconds", st, 1, 1⟩
            else
              ⟨.startedBrowserless,
                ⟨some ⟨true, false, true, p.filename, [], p.format⟩, st.storedVideos⟩, 1, 0⟩
          else if p.useScreencast then
            if !be.newCdpOk then ⟨.screencastFailed "Screencast recording failed", st, 0, 0⟩
            else if !be.startScreencastOk then
              ⟨.screencastFailed "Screencast recording failed", st, 1, 1⟩
            else
              ⟨.startedScreencast,
                ⟨some ⟨false, true, true, p.filename, [], p.format⟩, st.storedVideos⟩, 1, 0⟩
          else if cfg.contextRecordVideo then
            ⟨.startedContext,
              ⟨some ⟨false, false, false, p.filename, [], p.format⟩, st.storedVideos⟩, 0, 0⟩
          else ⟨.needsConfig (needsConfigMsg ep), st, 0, 0⟩
        else if cfg.contextRecordVideo then
          ⟨.startedContext,
            ⟨some ⟨false, false, false, p.filename, [], p.format⟩, st.storedVideos⟩, 0, 0⟩
        else ⟨.notConfigured notConfiguredMsg, st, 0, 0⟩
      | none =>
        if cfg.contextRecordVideo then
          ⟨.startedContext,
            ⟨some ⟨false, false, false, p.filename, [], p.format⟩, st.storedVideos⟩, 0, 0⟩
        else ⟨.notConfigured notConfiguredMsg, st, 0, 0⟩

/-! ### `videoStop` (Browserless, screencast and standard branches) -/

/-- Shape of `response.value` in the `Browserless.stopRecording` reply:
a text-encoded payload, a raw `Buffer`, or something else (which the
source rejects as an unsupported format). -/
inductive BLValue where
  | str (s : List Char)
  | buf (bytes : List Nat)
  | other
deriving Repr, DecidableEq

/-- The `Browserless.stopRecording` reply: an optional `value` field and
an optional base64 `data` field. -/
structure BLResponse where
  value : Option BLValue
  data : Option (List Char)
deriving Repr, DecidableEq

/-- The individual throw sites inside the `videoStop` strategy branches.
`commandFailed` is `Browserless.stopRecording` rejecting;
`unsupportedPayload` is the `Unsupported video data format` throw;
`noData` is `No video data returned from Browserless`; `emptyBuffer` is
`Empty video buffer returned from Browserless`; `writeFailed` is the file
write rejecting; `detachFailed` is `cdpSession.detach()` rejecting;
`stopScreencastFailed` is `Page.stopScreencast` rejecting; `noFrames` is
`No frames were captured during screencast`; `frameWriteFailed` is a
frame-file write rejecting. -/
inductive StopErr where
  | commandFailed
  | unsupportedPayload
  | noData
  | emptyBuffer
  | writeFailed
  | detachFailed
  | stopScreencastFailed
  | noFrames
  | frameWriteFailed
deriving Repr, DecidableEq

/-- Result variants of the `browser_video_stop` action: the no-session
early return, the two strategy-branch catch returns (each carrying the
throw site that was caught), and normal completion with the artifact path
that was found (if any). -/
inductive StopOutcome where
  | noActive
  | browserlessError (e : StopErr)
  | screencastError (e : StopErr)
  | stopped (savedPath : Option String)
deriving Repr, DecidableEq

/-- Outcomes of the backend calls `videoStop` can make. `stopRecording` is
`none` when the `Browserless.stopRecording` command throws; `writeOk` /
`frameWritesOk` model the artifact / frame file writes succeeding;
`playwrightVideoPath` is the path reported by `page.video().path()` in the
standard branch and `pathFileExists` whether a path exists on disk. -/
structure StopBackend where
  stopRecording : Option BLResponse
  writeOk : Bool
  detachOk : Bool
  stopScreencastOk : Bool
  frameWritesOk : Bool
  playwrightVideoPath : Option String
  pathFileExists : String → Bool

/-- One entry of the `frames.json` manifest. -/
structure ManifestEntry where
  filename : String
  timestamp : Nat
  index : Nat
deriving Repr, DecidableEq

/-- The `frames.json` manifest written by the screencast branch. -/
structure Manifest where
  frameCount : Nat
  duration : Nat
  format : String
  frames : List ManifestEntry
deriving Repr, DecidableEq

/-- Result of one `videoStop` action: outcome, the context state left
behind, the number of `cdpSession.detach()` calls issued, the files
written (path and byte content; the manifest file's JSON text is
represented by the `manifest` field), the manifest value if one was
produced, and whether `Page.stopScreencast` completed. -/
structure StopResult where
  outcome : StopOutcome
  state : CtxState
  detachCount : Nat
  writes : List (String × List Nat)
  manifest : Option Manifest
  unsubscribed : Bool

/-- Normalisation of the `Browserless.stopRecording` reply to raw bytes,
followed by the empty-buffer rejection and the artifact write, exactly in
source order. A string `value` is decoded as base64 (`Buffer.from(s,
'base64')` never throws, so the binary fallback of the source is dead);
a `Buffer` value is taken as-is; any other `value` shape is rejected;
with no `value`, a base64 `data` field is decoded; otherwise the reply
carries no video data. The post-write `stat` size equals the written byte
count, so the `Video file was written but is empty` throw cannot fire
after a non-empty write. -/
def browserlessStopBytes (be : StopBackend) : Except StopErr (List Nat) :=
  match be.stopRecording with
  | none => .error .commandFailed
  | some resp =>
    let validateAndWrite : List Nat → Except StopErr (List Nat) := fun bytes =>
      if bytes.length = 0 then .error .emptyBuffer
      else if !be.writeOk then .error .writeFailed
      else .ok bytes
    match resp.value with
    | some (.str s) => validateAndWrite (decodeBase64 s)
    | some (.buf b) => validateAndWrite b
    | some .other => .error .unsupportedPayload
    | none =>
      match resp.data with
      | some d => validateAndWrite (decodeBase64 d)
      | none => .error .noData

/-- `frame-NNNNNN.<format>`: the generated name of the `i`-th frame file. -/
def frameFilename (i : Nat) (format : String) : String :=
  "frame-" ++ pad6 i ++ "." ++ format

/-- The manifest entries produced for the captured frames, starting at
index `i` (the source builds these by mapping over the frame files with
their index). -/
def manifestEntriesFrom (format : String) : Nat → List Frame → List ManifestEntry
  | _, [] => []
  | i, f :: r => ⟨frameFilename i format, f.timestamp, i⟩ :: manifestEntriesFrom format (i + 1) r

/-- The frame-file writes of the screencast branch: each buffered frame is
base64-decoded and written under its generated name inside `dir`. -/
def frameWritesFrom (dir format : String) : Nat → List Frame → List (String × List Nat)
  | _, [] => []
  | i, f :: r =>
      (dir ++ "/" ++ frameFilename i format, decodeBase64 f.data) ::
      frameWritesFrom dir format (i + 1) r

/-- `videoStop` action (enhanced video tool). The Browserless and
screencast branches return from inside their `catch` blocks on failure,
before the `delete context._videoRecording` line is reached, so the
registry entry survives every caught error; only a branch that completes
falls through to the registry delete and the `_storedVideos` update. The
standard branch swallows all its internal errors and always falls
through. `duration` is the elapsed recording time and `stamp` the
`Date.now()` fragment used in generated directory names. -/
def videoStop (st : CtxState) (be : StopBackend) (duration : Nat) (stamp : String) :
    StopResult :=
  match st.videoRecording with
  | none => ⟨.noActive, st, 0, [], none, false⟩
  | some info =>
    if info.usingBrowserless && info.hasCdpSession then
      match browserlessStopBytes be with
      | .error e => ⟨.browserlessError e, st, 1, [], none, false⟩
      | .ok bytes =>
        let actualVideoPath := "test-results/videos-" ++ stamp ++ "/" ++ info.requestedFilename
        if be.detachOk then
          ⟨.stopped (some actualVideoPath),
            ⟨none, (info.requestedFilename, actualVideoPath) :: st.storedVideos⟩,
            1, [(actualVideoPath, bytes)], none, false⟩
        else
          ⟨.browserlessError .detachFailed, st, 2, [(actualVideoPath, bytes)], none, false⟩
    else if info.usingScreencast && info.hasCdpSession then
      if !be.stopScreencastOk then
        ⟨.screencastError .stopScreencastFailed, st, 1, [], none, false⟩
      else if 0 < info.frames.length then
        if !be.frameWritesOk then
          ⟨.screencastError .frameWriteFailed, st, 1, [], none, true⟩
        else
          let framesDir := "test-results/screencast-" ++ stamp
          let m : Manifest :=
            ⟨info.frames.length, duration, info.format,
              manifestEntriesFrom info.format 0 info.frames⟩
          let fwrites := frameWritesFrom framesDir info.format 0 info.frames
          if be.detachOk then
            ⟨.stopped (some framesDir),
              ⟨none, (info.requestedFilename, framesDir) :: st.storedVideos⟩,
              1, fwrites ++ [(framesDir ++ "/frames.json", [])], some m, true⟩
          else
            ⟨.screencastError .detachFailed, st, 2,
              fwrites ++ [(framesDir ++ "/frames.json", [])], some m, true⟩
      else ⟨.screencastError .noFrames, st, 1, [], none, true⟩
    else
      let st' : CtxState :=
        ⟨none,
          match be.playwrightVideoPath with
          | some p =>
            if be.pathFileExists p then (info.requestedFilename, p) :: st.storedVideos
            else st.storedVideos
          | none => st.storedVideos⟩
      ⟨.stopped be.playwrightVideoPath, st', 0, [], none, false⟩

/-! ### Artifact reader (`readVideoFileAsBase64`, `isValidWebMFile`) -/

/-- Result record of `readVideoFileAsBase64`. -/
structure ReadVideoResult where
  success : Bool
  base64 : Option (List Char)
  fileSize : Option Nat
  isValidWebM : Option Bool
  errMsg : Option String
deriving Repr, DecidableEq

/-- `isValidWebMFile(buffer)`: the buffer has at least four bytes and
starts with the EBML header `1A 45 DF A3`. -/
def isValidWebMFile (buffer : List Nat) : Bool :=
  match buffer with
  | b0 :: b1 :: b2 :: b3 :: _ => b0 == 0x1A && b1 == 0x45 && b2 == 0xDF && b3 == 0xA3
  | _ => false

/-- `readVideoFileAsBase64(filePath, forceRead)`. `file` is the byte
content of the file (`none` = stat/read threw). Unless forced, an empty
file and a buffer without the WebM signature are rejected without
producing any base64 text. -/
def readVideoFileAsBase64 (file : Option (List Nat)) (forceRead : Bool) : ReadVideoResult :=
  match file with
  | none => ⟨false, none, none, none, some "Error reading video file"⟩
  | some buf =>
    if buf.length == 0 && !forceRead then
      ⟨false, none, none, none,
        some "Video file is empty (0 bytes). Use forceBase64: true to force return anyway."⟩
    else
      let valid := isValidWebMFile buf
      if !valid && !forceRead then
        ⟨false, none, none, none,
          some "File doesn\x27t appear to be a valid WebM video. Use forceBase64: true to force return anyway."⟩
      else ⟨true, some (encodeBase64 buf), some buf.length, some valid, none⟩

/-! ### Delivery server (`serveVideoFile`) -/

/-- The observable HTTP response of `serveVideoFile`: status code,
`Content-Length` and `Content-Range` headers, and the bytes streamed to
the client. -/
structure ServeResponse where
  status : Nat
  contentLength : Option Nat
  contentRange : Option String
  body : List Nat
deriving Repr, DecidableEq

/-- `serveVideoFile(req, res, url)`. The filename is the URL path with the
first `/videos/` removed; an empty or traversal-containing name is a 400;
`resolve` abstracts the newest-first directory search (`none` = 404). With
a `Range: bytes=<a>-<b>` header the bounds are parsed with `parseInt`; a
start or end at or past the file size is a 416, otherwise a 206 with the
requested slice; without a header the whole file is served as a 200.
(When `parseInt` yields NaN the source compares NaN and falls into the 206
arm with NaN headers; that arm is represented by a 206 with no headers and
an empty body.) -/
def serveVideoFile (resolve : String → Option (List Nat)) (urlPathname : String)
    (rangeHeader : Option String) : ServeResponse :=
  let videoPath := replaceFirstStr urlPathname "/videos/" ""
  if videoPath == "" || strIncludes videoPath ".." then ⟨400, none, none, []⟩
  else
    match resolve videoPath with
    | none => ⟨404, none, none, []⟩
    | some bytes =>
      let fileSize := bytes.length
      match rangeHeader with
      | none => ⟨200, some fileSize, none, bytes⟩
      | some range =>
        let parts := splitOnChar '-' (replaceFirstChars "bytes=".data [] range.data)
        let startN := parseIntLeading (parts.getD 0 [])
        let endPart := parts.getD 1 []
        let endN := if !endPart.isEmpty then parseIntLeading endPart else some (fileSize - 1)
        match startN, endN with
        | some s, some e =>
          if fileSize ≤ s || fileSize ≤ e then
            ⟨416, none, some ("bytes */" ++ toString fileSize), []⟩
          else
            ⟨206, some (e - s + 1),
              some ("bytes " ++ toString s ++ "-" ++ toString e ++ "/" ++ toString fileSize),
              (bytes.drop s).take (e - s + 1)⟩
        | _, _ => ⟨206, none, none, []⟩

/-! ### Concrete instances used by witnesses and counterexamples -/

/-- A URL parser that fails on every input (every string malformed). -/
def parseNone : String → Option URLRec := fun _ => none

/-- A parser recognising one Browserless endpoint without a `record`
query parameter. -/
def parseBRec : String → Option URLRec := fun s =>
  if s == "wss://demo.browserless.example" then
    some ⟨"demo.browserless.example", "/", []⟩
  else none

/-- A local (non-CDP) configuration without startup recording. -/
def cfgEx : StartConfig := ⟨none, false⟩

/-- A CDP configuration pointing at the Browserless endpoint recognised by
`parseBRec`. -/
def cfgBL : StartConfig := ⟨some "wss://demo.browserless.example", false⟩

/-- A start backend where every protocol call succeeds. -/
def beStartEx : StartBackend := ⟨true, true, some true, true, true⟩

/-- A registry entry for an active Browserless (Proprietary) session. -/
def infoBL : VideoRecording := ⟨true, false, true, "video-1.webm", [], "jpeg"⟩

/-- A context whose target already has an active session. -/
def stActive : CtxState := ⟨some infoBL, []⟩

/-- A context with no active session. -/
def stIdle : CtxState := ⟨none, []⟩

/-- Default start parameters. -/
def pEx : StartParams := ⟨"video-1.webm", false, "jpeg"⟩

/-- A stop backend whose `Browserless.stopRecording` command throws. -/
def beStopFail : StopBackend := ⟨none, true, true, true, true, none, fun _ => false⟩

/-- Poll stream: the file always stats at 1000 bytes. -/
def pollsConst : Nat → Option Nat := fun _ => some 1000

/-- Poll stream: sizes 5, 5, 0, 5, 5, 5, ... (a transient zero-size stat
between equal positive sizes). -/
def pollsBump : Nat → Option Nat := fun k => some (([5, 5, 0, 5, 5] : List Nat).getD k 5)

/-- Poll stream: the file never exists (every stat throws). -/
def pollsNone : Nat → Option Nat := fun _ => none

/-- A published 1000-byte artifact. -/
def file1000 : List Nat := List.replicate 1000 7

/-- An artifact store resolving exactly the name `clip.webm`. -/
def resolve1000 : String → Option (List Nat) := fun p =>
  if p == "clip.webm" then some file1000 else none

/-- A registry entry for an active screencast session with an empty frame
buffer. -/
def infoSC0 : VideoRecording := ⟨false, true, true, "video-1.webm", [], "jpeg"⟩

/-- A stop backend where every call succeeds and the Playwright path
lookup finds nothing. -/
def beStopOk : StopBackend :=
  ⟨some ⟨some (.buf [1]), none⟩, true, true, true, true, none, fun _ => false⟩


/-! ### Supporting lemmas -/

theorem charSextet_sextetChar : ∀ n, n < 64 → charSextet (sextetChar n) = n := by decide

theorem sextetChar_ne_pad : ∀ n, n < 64 → (sextetChar n == '=') = false := by decide

theorem filter_map_encodeBase64 :
    ∀ bs : List Nat, (∀ b ∈ bs, b < 256) →
      ((encodeBase64 bs).filter (fun c => !(c == '='))).map charSextet = sextetsOf bs
  | [], _ => rfl
  | [b1], h => by
      have hb1 : b1 < 256 := h b1 (by simp)
      have h1 : b1 / 4 < 64 := by omega
      have h2 : b1 % 4 * 16 < 64 := by omega
      simp [encodeBase64, sextetsOf, List.filter, sextetChar_ne_pad _ h1,
        sextetChar_ne_pad _ h2, charSextet_sextetChar _ h1, charSextet_sextetChar _ h2]
  | [b1, b2], h => by
      have hb1 : b1 < 256 := h b1 (by simp)
      have hb2 : b2 < 256 := h b2 (by simp)
      have h1 : b1 / 4 < 64 := by omega
      have h2 : b1 % 4 * 16 + b2 / 16 < 64 := by omega
      have h3 : b2 % 16 * 4 < 64 := by omega
      simp [encodeBase64, sextetsOf, List.filter, sextetChar_ne_pad _ h1,
        sextetChar_ne_pad _ h2, sextetChar_ne_pad _ h3, charSextet_sextetChar _ h1,
        charSextet_sextetChar _ h2, charSextet_sextetChar _ h3]
  | [b1, b2, b3], h => by
      have hb1 : b1 < 256 := h b1 (by simp)
      have hb2 : b2 < 256 := h b2 (by simp)
      have hb3 : b3 < 256 := h b3 (by simp)
      have h1 : b1 / 4 < 64 := by omega
      have h2 : b1 % 4 * 16 + b2 / 16 < 64 := by omega
      have h3 : b2 % 16 * 4 + b3 / 64 < 64 := by omega
      have h4 : b3 % 64 < 64 := by omega
      simp [encodeBase64, sextetsOf, List.filter, sextetChar_ne_pad _ h1,
        sextetChar_ne_pad _ h2, sextetChar_ne_pad _ h3, sextetChar_ne_pad _ h4,
        charSextet_sextetChar _ h1, charSextet_sextetChar _ h2,
        charSextet_sextetChar _ h3, charSextet_sextetChar _ h4]
  | b1 :: b2 :: b3 :: b4 :: rest, h => by
      have hb1 : b1 < 256 := h b1 (by simp)
      have hb2 : b2 < 256 := h b2 (by simp)
      have hb3 : b3 < 256 := h b3 (by simp)
      have ih := filter_map_encodeBase64 (b4 :: rest) (fun b hb => h b (by simp [hb]))
      have h1 : b1 / 4 < 64 := by omega
      have h2 : b1 % 4 * 16 + b2 / 16 < 64 := by omega
      have h3 : b2 % 16 * 4 + b3 / 64 < 64 := by omega
      have h4 : b3 % 64 < 64 := by omega
      simp [encodeBase64, sextetsOf, List.filter, sextetChar_ne_pad _ h1,
        sextetChar_ne_pad _ h2, sextetChar_ne_pad _ h3, sextetChar_ne_pad _ h4,
        charSextet_sextetChar _ h1, charSextet_sextetChar _ h2,
        charSextet_sextetChar _ h3, charSextet_sextetChar _ h4]
      exact ih

theorem decodeBase64Core_sextetsOf :
    ∀ bs : List Nat, (∀ b ∈ bs, b < 256) → decodeBase64Core (sextetsOf bs) = bs
  | [], _ => rfl
  | [b1], h => by
      have hb1 : b1 < 256 := h b1 (by simp)
      simp [sextetsOf, decodeBase64Core]
      omega
  | [b1, b2], h => by
      have hb1 : b1 < 256 := h b1 (by simp)
      have hb2 : b2 < 256 := h b2 (by simp)
      simp [sextetsOf, decodeBase64Core]
      omega
  | [b1, b2, b3], h => by
      have hb1 : b1 < 256 := h b1 (by simp)
      have hb2 : b2 < 256 := h b2 (by simp)
      have hb3 : b3 < 256 := h b3 (by simp)
      simp [sextetsOf, decodeBase64Core]
      omega
  | b1 :: b2 :: b3 :: b4 :: rest, h => by
      have hb1 : b1 < 256 := h b1 (by simp)
      have hb2 : b2 < 256 := h b2 (by simp)
      have hb3 : b3 < 256 := h b3 (by simp)
      have ih := decodeBase64Core_sextetsOf (b4 :: rest) (fun b hb => h b (by simp [hb]))
      simp [sextetsOf, decodeBase64Core, ih]
      omega

/-- Base64 round trip: decoding the encoding of any byte list returns it
byte for byte. -/
theorem decodeBase64_encodeBase64 (bs : List Nat) (h : ∀ b ∈ bs, b < 256) :
    decodeBase64 (encodeBase64 bs) = bs := by
  unfold decodeBase64
  rw [filter_map_encodeBase64 bs h, decodeBase64Core_sextetsOf bs h]

theorem waitLoopF_count (polls : Nat → Option Nat) (required interval maxWait : Nat)
    (hreq : 0 < required) :
    ∀ fuel elapsed st k, countAfter polls k = st →
      (∀ m, m ≤ k → (countAfter polls m).stableCount < required) →
      countSpec polls required (waitLoopF polls required interval maxWait fuel elapsed st k)
  | 0, elapsed, st, k, _, hinv => by
      refine ⟨fun h => by simp [waitLoopF] at h, fun _ => ?_⟩
      simpa [waitLoopF] using hinv
  | fuel + 1, elapsed, st, k, hst, hinv => by
      by_cases he : elapsed < maxWait
      · cases hp : polls k with
        | none =>
          have hst' : countAfter polls (k + 1) = st := by
            simp [countAfter, hst, hp, waitStep]
          have hinv' : ∀ m, m ≤ k + 1 → (countAfter polls m).stableCount < required := by
            intro m hm
            rcases Nat.lt_or_ge m (k + 1) with h | h
            · exact hinv m (Nat.lt_succ_iff.mp h)
            · have : m = k + 1 := Nat.le_antisymm hm h
              rw [this, hst']
              exact hst ▸ hinv k (Nat.le_refl k)
          simpa [waitLoopF, he, hp] using
            waitLoopF_count polls required interval maxWait hreq fuel (elapsed + interval)
              st (k + 1) hst' hinv'
        | some size =>
          by_cases hsz : 0 < size
          · by_cases heq : size = st.lastSize
            · subst heq
              by_cases hbr : required ≤ st.stableCount + 1
              · -- stability break taken at poll k
                have hcnt : (countAfter polls (k + 1)).stableCount = st.stableCount + 1 := by
                  simp [countAfter, hst, hp, waitStep, hsz]
                have hlt : st.stableCount < required := by
                  have := hinv k (Nat.le_refl k)
                  rwa [hst] at this
                refine ⟨fun _ => ?_, fun h => ?_⟩
                · constructor
                  · simp [waitLoopF, he, hp, hsz, hbr]
                    omega
                  · intro m hm
                    simp [waitLoopF, he, hp, hsz, hbr] at hm
                    exact hinv m (Nat.lt_succ_iff.mp hm)
                · simp [waitLoopF, he, hp, hsz, hbr] at h
              · have hst' : countAfter polls (k + 1) = ⟨st.lastSize, st.stableCount + 1⟩ := by
                  simp [countAfter, hst, hp, waitStep, hsz]
                have hinv' : ∀ m, m ≤ k + 1 → (countAfter polls m).stableCount < required := by
                  intro m hm
                  rcases Nat.lt_or_ge m (k + 1) with h | h
                  · exact hinv m (Nat.lt_succ_iff.mp h)
                  · have : m = k + 1 := Nat.le_antisymm hm h
                    rw [this, hst']
                    show st.stableCount + 1 < required
                    omega
                simpa [waitLoopF, he, hp, hsz, hbr] using
                  waitLoopF_count polls required interval maxWait hreq fuel (elapsed + interval)
                    ⟨st.lastSize, st.stableCount + 1⟩ (k + 1) hst' hinv'
            · have hst' : countAfter polls (k + 1) = ⟨size, 0⟩ := by
                simp [countAfter, hst, hp, waitStep, hsz, heq]
              have hinv' : ∀ m, m ≤ k + 1 → (countAfter polls m).stableCount < required := by
                intro m hm
                rcases Nat.lt_or_ge m (k + 1) with h | h
                · exact hinv m (Nat.lt_succ_iff.mp h)
                · have : m = k + 1 := Nat.le_antisymm hm h
                  rw [this, hst']
                  exact hreq
              simpa [waitLoopF, he, hp, hsz, heq] using
                waitLoopF_count polls required interval maxWait hreq fuel (elapsed + interval)
                  ⟨size, 0⟩ (k + 1) hst' hinv'
          · have hst' : countAfter polls (k + 1) = st := by
              simp [countAfter, hst, hp, waitStep, hsz]
            have hinv' : ∀ m, m ≤ k + 1 → (countAfter polls m).stableCount < required := by
              intro m hm
              rcases Nat.lt_or_ge m (k + 1) with h | h
              · exact hinv m (Nat.lt_succ_iff.mp h)
              · have : m = k + 1 := Nat.le_antisymm hm h
                rw [this, hst']
                exact hst ▸ hinv k (Nat.le_refl k)
            simpa [waitLoopF, he, hp, hsz] using
              waitLoopF_count polls required interval maxWait hreq fuel (elapsed + interval)
                st (k + 1) hst' hinv'
      · refine ⟨fun h => by simp [waitLoopF, he] at h, fun _ => ?_⟩
        simpa [waitLoopF, he] using hinv

theorem waitLoopF_timeBound (polls : Nat → Option Nat) (required interval maxWait : Nat)
    (hint : 0 < interval) :
    ∀ fuel elapsed st k, interval ∣ elapsed → elapsed < maxWait + interval →
      maxWait ≤ fuel * interval + elapsed →
      timeSpec interval maxWait (waitLoopF polls required interval maxWait fuel elapsed st k)
  | 0, elapsed, st, k, hdvd, hub, hbudget => by
      refine ⟨fun _ => ?_, ?_, ?_⟩
      · simp [waitLoopF]
        omega
      · simp [waitLoopF]
        omega
      · simpa [waitLoopF] using hdvd
  | fuel + 1, elapsed, st, k, hdvd, hub, hbudget => by
      by_cases he : elapsed < maxWait
      · have hdvd' : interval ∣ elapsed + interval := Dvd.dvd.add hdvd (Dvd.intro 1 (by ring))
        have hub' : elapsed + interval < maxWait + interval := by omega
        have hbudget' : maxWait ≤ fuel * interval + (elapsed + interval) := by
          have : (fuel + 1) * interval + elapsed = fuel * interval + (elapsed + interval) := by
            ring
          omega
        cases hp : polls k with
        | none =>
          simpa [waitLoopF, he, hp] using
            waitLoopF_timeBound polls required interval maxWait hint fuel (elapsed + interval)
              st (k + 1) hdvd' hub' hbudget'
        | some size =>
          by_cases hsz : 0 < size
          · by_cases heq : size = st.lastSize
            · subst heq
              by_cases hbr : required ≤ st.stableCount + 1
              · refine ⟨fun h => ?_, ?_, ?_⟩
                · simp [waitLoopF, he, hp, hsz, hbr] at h
                · simp [waitLoopF, he, hp, hsz, hbr]
                  omega
                · simpa [waitLoopF, he, hp, hsz, hbr] using hdvd
              · simpa [waitLoopF, he, hp, hsz, hbr] using
                  waitLoopF_timeBound polls required interval maxWait hint fuel
                    (elapsed + interval) ⟨st.lastSize, st.stableCount + 1⟩ (k + 1)
                    hdvd' hub' hbudget'
            · simpa [waitLoopF, he, hp, hsz, heq] using
                waitLoopF_timeBound polls required interval maxWait hint fuel
                  (elapsed + interval) ⟨size, 0⟩ (k + 1) hdvd' hub' hbudget'
          · simpa [waitLoopF, he, hp, hsz] using
              waitLoopF_timeBound polls required interval maxWait hint fuel
                (elapsed + interval) st (k + 1) hdvd' hub' hbudget'
      · refine ⟨fun _ => ?_, ?_, ?_⟩
        · simp only [waitLoopF, if_neg he]
          omega
        · simp only [waitLoopF, if_neg he]
          omega
        · simpa [waitLoopF, he] using hdvd

theorem le_of_dvd_dvd_lt_add {i a m : Nat} (ha : i ∣ a) (hm : i ∣ m)
    (h : a < m + i) : a ≤ m := by
  obtain ⟨x, hx⟩ := ha
  obtain ⟨y, hy⟩ := hm
  subst hx hy
  have hlt : i * x < i * (y + 1) := by
    calc i * x < i * y + i := h
    _ = i * (y + 1) := by ring
  have : x < y + 1 := Nat.lt_of_mul_lt_mul_left hlt
  exact Nat.mul_le_mul_left i (by omega)

theorem manifestEntriesFrom_length (format : String) :
    ∀ i fs, (manifestEntriesFrom format i fs).length = fs.length
  | _, [] => rfl
  | i, _ :: r => by
      simp [manifestEntriesFrom, manifestEntriesFrom_length format (i + 1) r]

theorem manifestEntriesFrom_get (format : String) :
    ∀ off fs j (h : j < (manifestEntriesFrom format off fs).length) (h2 : j < fs.length),
      (manifestEntriesFrom format off fs).get ⟨j, h⟩ =
        ⟨frameFilename (off + j) format, (fs.get ⟨j, h2⟩).timestamp, off + j⟩
  | _, [], j, h, _ => by simp [manifestEntriesFrom] at h
  | off, f :: r, 0, h, h2 => by simp [manifestEntriesFrom, List.get]
  | off, f :: r, j + 1, h, h2 => by
      have h' : j < (manifestEntriesFrom format (off + 1) r).length := by
        have hl := manifestEntriesFrom_length format (off + 1) r
        simp [manifestEntriesFrom] at h
        omega
      have h2' : j < r.length := by simpa using h2
      have step : (manifestEntriesFrom format off (f :: r)).get ⟨j + 1, h⟩ =
          (manifestEntriesFrom format (off + 1) r).get ⟨j, h'⟩ := rfl
      rw [step, manifestEntriesFrom_get format (off + 1) r j h' h2']
      have harith : off + 1 + j = off + (j + 1) := by omega
      have hget : (f :: r).get ⟨j + 1, h2⟩ = r.get ⟨j, h2'⟩ := rfl
      rw [harith, hget]

theorem frameWritesFrom_length (dir format : String) :
    ∀ i fs, (frameWritesFrom dir format i fs).length = fs.length
  | _, [] => rfl
  | i, _ :: r => by
      simp [frameWritesFrom, frameWritesFrom_length dir format (i + 1) r]

theorem isValidWebMFile_length_ne_zero (B : List Nat) (h : isValidWebMFile B = true) :
    (B.length == 0) = false := by
  cases B with
  | nil => simp [isValidWebMFile] at h
  | cons b t => simp

/-! ### Claim theorems -/

/-- C2: for every strategy kind and every backend behaviour, calling
`videoStart` while a session for the target is active (the
`_videoRecording` registry entry is set, which covers both the Active and
Finalizing phases) returns the already-active outcome, leaves the context
state — including the existing session — unchanged, and opens no CDP
session and detaches none, i.e. the failing call is side-effect-free. -/
theorem videoStart_alreadyActive (parseURL : String → Option URLRec) (cfg : StartConfig)
    (be : StartBackend) (st : CtxState) (p : StartParams) (info : VideoRecording)
    (h : st.videoRecording = some info) :
    videoStart parseURL cfg be st p = ⟨.alreadyActive, st, 0, 0⟩ := by
  unfold videoStart
  rw [h]

theorem videoStart_alreadyActive_witness :
    videoStart parseNone cfgEx beStartEx stActive pEx = ⟨.alreadyActive, stActive, 0, 0⟩ :=
  videoStart_alreadyActive parseNone cfgEx beStartEx stActive pEx infoBL rfl

/-- C3: on every exit path of the Proprietary (Browserless) strategy's
stop — success, the unsupported-payload rejection, the missing-data
rejection, the empty-artifact rejection, a write failure, or the stop
command itself failing — the CDP session handle is detached exactly once,
provided the detach call itself does not throw. -/
theorem videoStop_browserless_detach_once (st : CtxState) (be : StopBackend)
    (duration : Nat) (stamp : String) (info : VideoRecording)
    (h : st.videoRecording = some info) (hbl : info.usingBrowserless = true)
    (hcdp : info.hasCdpSession = true) (hdet : be.detachOk = true) :
    (videoStop st be duration stamp).detachCount = 1 := by
  unfold videoStop
  rw [h]
  cases hbs : browserlessStopBytes be with
  | error e => simp [hbl, hcdp, hbs]
  | ok bytes => simp [hbl, hcdp, hbs, hdet]

theorem videoStop_browserless_detach_once_witness :
    (videoStop stActive beStopFail 5000 "T").detachCount = 1 :=
  videoStop_browserless_detach_once stActive beStopFail 5000 "T" infoBL rfl rfl rfl rfl

/-- C10: the endpoint predicates are total Lean functions over every
input string (so strategy selection cannot crash `videoStart`), they both
return `false` whenever URL parsing fails, and `isBrowserlessEndpoint`
returns `false` on the empty string regardless of the parser (its empty
check precedes parsing). -/
theorem endpoint_predicates_total (parseURL : String → Option URLRec) (s : String) :
    (parseURL s = none →
      isBrowserlessEndpoint parseURL s = false ∧ hasRecordingEnabled parseURL s = false) ∧
    isBrowserlessEndpoint parseURL "" = false := by
  constructor
  · intro h
    constructor
    · by_cases hs : s == "" <;> simp [isBrowserlessEndpoint, hs, h]
    · simp [hasRecordingEnabled, h]
  · simp [isBrowserlessEndpoint]

theorem endpoint_predicates_total_witness :
    isBrowserlessEndpoint parseNone "::not a url::" = false ∧
    hasRecordingEnabled parseNone "::not a url::" = false :=
  (endpoint_predicates_total parseNone "::not a url::").1 rfl

/-- C8: for every connection descriptor whose endpoint matches the vendor
markers (`isBrowserlessEndpoint` true) but lacks the `record=true` query
flag (`hasRecordingEnabled` false), `videoStart` returns the not-enabled
outcome, and its message contains the literal flag name `record=true` and
ends with a corrected example URL. -/
theorem videoStart_notEnabled_message (parseURL : String → Option URLRec)
    (cfg : StartConfig) (be : StartBackend) (st : CtxState) (p : StartParams) (ep : String)
    (hreg : st.videoRecording = none) (hbr : be.browserAvailable = true)
    (hep : cfg.cdpEndpoint = some ep) (hne : ep ≠ "")
    (hbl : isBrowserlessEndpoint parseURL ep = true)
    (hrec : hasRecordingEnabled parseURL ep = false) :
    (videoStart parseURL cfg be st p).outcome = .notEnabled notEnabledMsg ∧
    (∃ a b, notEnabledMsg = a ++ "record=true" ++ b) ∧
    (∃ a, notEnabledMsg =
      a ++ "wss://production-sfo.browserless.io?token=YOUR_TOKEN&record=true") := by
  refine ⟨?_,
    ⟨"Browserless endpoint detected but recording not enabled. Add \x27",
      "\x27 to your CDP URL:\n\nExample: wss://production-sfo.browserless.io?token=YOUR_TOKEN&record=true",
      rfl⟩,
    ⟨"Browserless endpoint detected but recording not enabled. Add \x27record=true\x27 to your CDP URL:\n\nExample: ",
      rfl⟩⟩
  unfold videoStart
  rw [hreg, hep]
  simp [hbr, hne, hbl, hrec]

theorem videoStart_notEnabled_message_witness :
    (videoStart parseBRec cfgBL beStartEx stIdle pEx).outcome = .notEnabled notEnabledMsg :=
  (videoStart_notEnabled_message parseBRec cfgBL beStartEx stIdle pEx
    "wss://demo.browserless.example" rfl rfl rfl (by decide) (by rfl) (by rfl)).1

/-- C1 counterexample: with an active Proprietary (Browserless) session,
when the backend stop-record command fails during stop, the caught
exception path returns before the registry delete: the `_videoRecording`
entry is still set afterwards, and a subsequent `videoStart` on the same
target yields the already-active outcome instead of being accepted —
contradicting the claim that every exception path clears the registry
entry and frees the target. -/
theorem videoStop_failed_stop_keeps_registry :
    (videoStop stActive beStopFail 5000 "T").state.videoRecording = some infoBL ∧
    (videoStart parseNone cfgEx beStartEx
      (videoStop stActive beStopFail 5000 "T").state pEx).outcome = .alreadyActive :=
  ⟨rfl, rfl⟩

/-- C1 amended: when the backend stop-record command fails during a
Proprietary stop, the handler catches the exception, detaches the control
channel and returns a structured error result — the session is not left
silently stuck and nothing is process-fatal — but the active-session
registry entry is NOT cleared: the state is unchanged and every subsequent
`videoStart` on the same target is rejected with the already-active
outcome rather than accepted. -/
theorem videoStop_error_retains_session (st : CtxState) (be : StopBackend)
    (duration : Nat) (stamp : String) (info : VideoRecording)
    (h : st.videoRecording = some info) (hbl : info.usingBrowserless = true)
    (hcdp : info.hasCdpSession = true) (hfail : be.stopRecording = none) :
    (videoStop st be duration stamp).outcome = .browserlessError .commandFailed ∧
    (videoStop st be duration stamp).state = st ∧
    ∀ (parseURL : String → Option URLRec) (cfg : StartConfig) (be2 : StartBackend)
      (p : StartParams),
      videoStart parseURL cfg be2 (videoStop st be duration stamp).state p =
        ⟨.alreadyActive, st, 0, 0⟩ := by
  have hb : browserlessStopBytes be = .error .commandFailed := by
    unfold browserlessStopBytes
    rw [hfail]
  have hres : videoStop st be duration stamp =
      ⟨.browserlessError .commandFailed, st, 1, [], none, false⟩ := by
    unfold videoStop
    rw [h]
    simp [hbl, hcdp, hb]
  refine ⟨by rw [hres], by rw [hres], ?_⟩
  intro parseURL cfg be2 p
  rw [hres]
  show videoStart parseURL cfg be2 st p = _
  unfold videoStart
  rw [h]

theorem videoStop_error_retains_session_witness :
    (videoStop stActive beStopFail 5000 "T").state = stActive :=
  (videoStop_error_retains_session stActive beStopFail 5000 "T" infoBL rfl rfl rfl rfl).2.1

/-- C4 counterexample: on the poll stream 5, 5, 0, 5, 5 the monitor (in
normal mode, threshold 3) reports success at the fifth poll, although the
count prescribed by the claim — which resets to zero whenever the size
changes, including the change to size 0 and back — is only 1 there: the
code ignores zero-size polls instead of resetting on them, so success is
reported before the claimed count ever reaches the threshold. -/
theorem waitForVideoFileComplete_zero_poll_counterexample :
    (waitForVideoFileComplete pollsBump 4000 false).stable = true ∧
    (waitForVideoFileComplete pollsBump 4000 false).pollCount = 5 ∧
    (specCountAfter pollsBump 5).stableCount = 1 :=
  ⟨rfl, rfl, rfl⟩

/-- C4 amended: the monitor counts consecutive polls whose size equals the
last observed positive size; zero-size polls and failed stats neither
increment nor reset the count (the size-changed reset fires only for a
positive size). It reports success exactly when that count (the fold
`countAfter` of the per-poll update `waitStep`) first reaches the
mode-specific threshold — 3 in normal mode, 5 in forced mode — and never
before; when it gives up without success the count stayed below the
threshold throughout the polled window. -/
theorem waitForVideoFileComplete_count (polls : Nat → Option Nat) (maxWaitMs : Nat)
    (isForced : Bool) :
    countSpec polls (if isForced then 5 else 3)
      (waitForVideoFileComplete polls maxWaitMs isForced) := by
  unfold waitForVideoFileComplete
  refine waitLoopF_count polls (if isForced then 5 else 3) (if isForced then 1000 else 500)
    maxWaitMs (by cases isForced <;> decide) maxWaitMs 0 ⟨0, 0⟩ 0 rfl ?_
  intro m hm
  have hm0 : m = 0 := Nat.le_zero.mp hm
  rw [hm0]
  show (0 : Nat) < _
  cases isForced <;> decide

theorem waitForVideoFileComplete_count_witness :
    (countAfter pollsConst
      ((waitForVideoFileComplete pollsConst 4000 false).pollCount)).stableCount =
      (if false then 5 else 3) :=
  ((waitForVideoFileComplete_count pollsConst 4000 false).1 (by rfl)).1

/-- C5: for every poll stream — including streams where the size never
stabilizes and streams where the file never exists — and every bound, the
finalization wait terminates: when it does not report stability it has
waited out the whole `maxWaitMs` bound, its return time is always below
`maxWaitMs` plus one poll interval, and whenever `maxWaitMs` is a whole
number of poll intervals (as with every whole-second caller bound) the
return time never exceeds `maxWaitMs` at all. -/
theorem waitForVideoFileComplete_bounded (polls : Nat → Option Nat) (maxWaitMs : Nat)
    (isForced : Bool) :
    timeSpec (if isForced then 1000 else 500) maxWaitMs
      (waitForVideoFileComplete polls maxWaitMs isForced) ∧
    ((if isForced then 1000 else 500) ∣ maxWaitMs →
      (waitForVideoFileComplete polls maxWaitMs isForced).elapsed ≤ maxWaitMs) := by
  have hint : 0 < (if isForced then 1000 else 500) := by cases isForced <;> decide
  have hbudget : maxWaitMs ≤ maxWaitMs * (if isForced then 1000 else 500) := by
    calc maxWaitMs = maxWaitMs * 1 := (Nat.mul_one _).symm
    _ ≤ maxWaitMs * (if isForced then 1000 else 500) := Nat.mul_le_mul_left _ hint
  have hts := waitLoopF_timeBound polls (if isForced then 5 else 3)
    (if isForced then 1000 else 500) maxWaitMs hint maxWaitMs 0 ⟨0, 0⟩ 0
    (dvd_zero _) (by omega) (by omega)
  refine ⟨hts, fun hdvd => le_of_dvd_dvd_lt_add hts.2.2 hdvd hts.2.1⟩

theorem waitForVideoFileComplete_bounded_witness :
    (1000 : Nat) ≤ (waitForVideoFileComplete pollsNone 1000 false).elapsed ∧
    (waitForVideoFileComplete pollsNone 1000 false).elapsed ≤ 1000 :=
  ⟨(waitForVideoFileComplete_bounded pollsNone 1000 false).1.1 (by rfl),
   (waitForVideoFileComplete_bounded pollsNone 1000 false).2 (by decide)⟩

/-- C6: the Frame Capture (screencast) strategy's stop never produces a
manifest with `frameCount` 0, for any state and backend behaviour; with
zero buffered frames it unsubscribes (`Page.stopScreencast` completes
before the frame check) and fails with the no-frames error, writing
nothing; with at least one buffered frame (and the writes succeeding) it
writes one file per frame plus the manifest, whose `frameCount`,
`duration`, `format` and per-frame `{filename, timestamp, index}` entries
record exactly the buffered frames. -/
theorem videoStop_screencast_frames (st : CtxState) (be : StopBackend) (duration : Nat)
    (stamp : String) :
    (∀ m, (videoStop st be duration stamp).manifest = some m → 0 < m.frameCount) ∧
    ∀ info, st.videoRecording = some info → info.usingBrowserless = false →
      info.usingScreencast = true → info.hasCdpSession = true →
      be.stopScreencastOk = true →
      ((info.frames = [] →
        (videoStop st be duration stamp).outcome = .screencastError .noFrames ∧
        (videoStop st be duration stamp).manifest = none ∧
        (videoStop st be duration stamp).unsubscribed = true ∧
        (videoStop st be duration stamp).writes = []) ∧
       (0 < info.frames.length → be.frameWritesOk = true → be.detachOk = true →
        ∃ m, (videoStop st be duration stamp).manifest = some m ∧
          m.frameCount = info.frames.length ∧
          m.duration = duration ∧
          m.format = info.format ∧
          m.frames.length = info.frames.length ∧
          (∀ i (hi : i < m.frames.length) (hi2 : i < info.frames.length),
            m.frames.get ⟨i, hi⟩ =
              ⟨frameFilename i info.format, (info.frames.get ⟨i, hi2⟩).timestamp, i⟩) ∧
          (videoStop st be duration stamp).writes.length = info.frames.length + 1)) := by
  constructor
  · intro m hm
    unfold videoStop at hm
    cases hreg : st.videoRecording with
    | none => rw [hreg] at hm; simp at hm
    | some info =>
      rw [hreg] at hm
      by_cases h1 : (info.usingBrowserless && info.hasCdpSession) = true
      · cases hbs : browserlessStopBytes be with
        | error e => simp [h1, hbs] at hm
        | ok bytes =>
          by_cases hd : be.detachOk = true
          · simp [h1, hbs, hd] at hm
          · simp [h1, hbs, hd] at hm
      · by_cases h2 : (info.usingScreencast && info.hasCdpSession) = true
        · by_cases h3 : be.stopScreencastOk = true
          · by_cases h4 : 0 < info.frames.length
            · by_cases h5 : be.frameWritesOk = true
              · by_cases hd : be.detachOk = true
                · simp [h1, h2, h3, h4, h5, hd] at hm
                  rw [← hm]
                  exact h4
                · simp [h1, h2, h3, h4, h5, hd] at hm
                  rw [← hm]
                  exact h4
              · simp [h1, h2, h3, h4, h5] at hm
            · simp [h1, h2, h3, h4] at hm
          · simp [h1, h2, h3] at hm
        · simp [h1, h2] at hm
  · intro info hreg hbl hsc hcdp hstop
    constructor
    · intro hfe
      have hres : videoStop st be duration stamp =
          ⟨.screencastError .noFrames, st, 1, [], none, true⟩ := by
        unfold videoStop
        rw [hreg]
        simp [hbl, hsc, hcdp, hstop, hfe]
      rw [hres]
      exact ⟨rfl, rfl, rfl, rfl⟩
    · intro hlen hfw hdet
      refine ⟨⟨info.frames.length, duration, info.format,
        manifestEntriesFrom info.format 0 info.frames⟩, ?_, rfl, rfl, rfl,
        manifestEntriesFrom_length info.format 0 info.frames, ?_, ?_⟩
      · unfold videoStop
        rw [hreg]
        simp [hbl, hsc, hcdp, hstop, hlen, hfw, hdet]
      · intro i hi hi2
        simpa using manifestEntriesFrom_get info.format 0 info.frames i hi hi2
      · unfold videoStop
        rw [hreg]
        simp [hbl, hsc, hcdp, hstop, hlen, hfw, hdet, frameWritesFrom_length]

theorem videoStop_screencast_frames_witness :
    (videoStop ⟨some infoSC0, []⟩ beStopOk 5000 "T").outcome = .screencastError .noFrames ∧
    (videoStop ⟨some infoSC0, []⟩ beStopOk 5000 "T").manifest = none :=
  have h := ((videoStop_screencast_frames ⟨some infoSC0, []⟩ beStopOk 5000 "T").2
    infoSC0 rfl rfl rfl rfl rfl).1 rfl
  ⟨h.1, h.2.1⟩

set_option maxRecDepth 40000 in
/-- C7: for a published 1000-byte artifact, a `Range: bytes=0-99` request
yields a 206 with `Content-Length` 100, `Content-Range` `bytes 0-99/1000`
and the first 100 bytes as body; a `Range: bytes=2000-2100` request
yields a 416; a request without a `Range` header yields a 200 with
`Content-Length` 1000 and the full body. -/
theorem serveVideoFile_range_cases :
    serveVideoFile resolve1000 "/videos/clip.webm" (some "bytes=0-99") =
      ⟨206, some 100, some "bytes 0-99/1000", (file1000.drop 0).take 100⟩ ∧
    (serveVideoFile resolve1000 "/videos/clip.webm" (some "bytes=2000-2100")).status = 416 ∧
    serveVideoFile resolve1000 "/videos/clip.webm" none = ⟨200, some 1000, none, file1000⟩ :=
  ⟨by decide, by decide, by decide⟩

/-- C9 counterexample: a published 1-byte artifact, retrieved with the
inline payload requested but without the force flag, is rejected by
`readVideoFileAsBase64` (it lacks the WebM signature), so no base64 text
decoding to the artifact bytes is returned — contradicting the claimed
byte-for-byte round trip at size 1. -/
theorem readVideoFileAsBase64_rejects_tiny :
    (readVideoFileAsBase64 (some [65]) false).success = false ∧
    (readVideoFileAsBase64 (some [65]) false).base64 = none :=
  ⟨rfl, rfl⟩

/-- C9 amended: for every byte content B, a forced inline retrieval
succeeds and returns base64 text that decodes to exactly B, byte for
byte; an unforced retrieval returns that same base64 text whenever B
carries the WebM signature (and is otherwise refused, as the
counterexample shows); and a zero-length B is rejected at write time by
the Proprietary stop with the empty-buffer error, writing and publishing
nothing. -/
theorem video_base64_roundtrip (B : List Nat) (h : ∀ b ∈ B, b < 256) :
    (readVideoFileAsBase64 (some B) true).success = true ∧
    (readVideoFileAsBase64 (some B) true).base64 = some (encodeBase64 B) ∧
    decodeBase64 (encodeBase64 B) = B ∧
    (isValidWebMFile B = true →
      (readVideoFileAsBase64 (some B) false).base64 = some (encodeBase64 B)) ∧
    (∀ (st : CtxState) (be : StopBackend) (d : Nat) (stamp : String)
      (info : VideoRecording),
      st.videoRecording = some info → info.usingBrowserless = true →
      info.hasCdpSession = true → be.stopRecording = some ⟨some (.buf []), none⟩ →
      (videoStop st be d stamp).outcome = .browserlessError .emptyBuffer ∧
      (videoStop st be d stamp).writes = [] ∧
      (videoStop st be d stamp).state.storedVideos = st.storedVideos) := by
  refine ⟨by simp [readVideoFileAsBase64], by simp [readVideoFileAsBase64],
    decodeBase64_encodeBase64 B h, ?_, ?_⟩
  · intro hvalid
    have hne := isValidWebMFile_length_ne_zero B hvalid
    simp [readVideoFileAsBase64, hne, hvalid]
  · intro st be d stamp info hreg hbl hcdp hresp
    have hb : browserlessStopBytes be = .error .emptyBuffer := by
      unfold browserlessStopBytes
      rw [hresp]
      rfl
    have hres : videoStop st be d stamp =
        ⟨.browserlessError .emptyBuffer, st, 1, [], none, false⟩ := by
      unfold videoStop
      rw [hreg]
      simp [hbl, hcdp, hb]
    rw [hres]
    exact ⟨rfl, rfl, rfl⟩

theorem video_base64_roundtrip_witness :
    decodeBase64 (encodeBase64 [26, 69, 223, 163]) = [26, 69, 223, 163] ∧
    (readVideoFileAsBase64 (some [26, 69, 223, 163]) false).base64 =
      some (encodeBase64 [26, 69, 223, 163]) :=
  have h := video_base64_roundtrip [26, 69, 223, 163] (by decide)
  ⟨h.2.2.1, h.2.2.2.1 (by decide)⟩

end PwMcp
